import Mathlib

/-!
Verification of the typestate request builder in src/main.rs.

The Rust code encodes each builder slot as a distinct Rust type
(MissingUrl and Url(String); MissingMethod and Method; MissingBody, NoBody
and Body(Option<String>)) and makes RequestBuilder generic over the three
slot types.  Here each slot family is mirrored by a small enumeration
(UrlSt, MethSt, BodySt) naming the possible states, together with a
function giving the data carried in each state, and RequestBuilder is
indexed by the three states.  Each Rust impl block becomes one definition
whose index constraints are exactly the type constraints of the impl block:

  UrlSt.missing ~ MissingUrl          UrlSt.set ~ Url(String)
  MethSt.missing ~ MissingMethod      MethSt.set ~ Method
  BodySt.missing ~ MissingBody        BodySt.noBody ~ NoBody
  BodySt.set ~ Body(Option<String>)

Operation names follow the construction API of the spec (withUrl,
withHeader, asGet, asPost, withBody, build); the Rust method names
(url, header, get, post, body, build) collide with the struct field
names, which Lean does not allow.
-/

/-- The Method enum of the source: `enum Method { GET, POST }`. -/
inductive Method : Type where
  | GET
  | POST
deriving DecidableEq, Repr

/-- Names of the two URL slot state types of the source. -/
inductive UrlSt : Type where
  | missing
  | set
deriving DecidableEq, Repr

/-- Data carried by each URL slot state: `MissingUrl` is a unit struct,
`Url(String)` carries the url text. -/
def UrlSt.data : UrlSt → Type
  | .missing => Unit
  | .set => String

/-- Names of the two method slot state types of the source. -/
inductive MethSt : Type where
  | missing
  | set
deriving DecidableEq, Repr

/-- Data carried by each method slot state: `MissingMethod` is a unit
struct, the set state carries a `Method`. -/
def MethSt.data : MethSt → Type
  | .missing => Unit
  | .set => Method

/-- Names of the three body slot state types of the source. -/
inductive BodySt : Type where
  | missing
  | noBody
  | set
deriving DecidableEq, Repr

/-- Data carried by each body slot state: `MissingBody` and `NoBody` are
unit structs, `Body(Option<String>)` carries an optional text. -/
def BodySt.data : BodySt → Type
  | .missing => Unit
  | .noBody => Unit
  | .set => Option String

/-- The final immutable product: `struct Request`. -/
structure Request : Type where
  url : String
  method : Method
  headers : List (String × String)
  body : Option String
deriving DecidableEq, Repr

/-- `struct RequestBuilder<U, M, B>`, with the three generic slot-type
parameters mirrored by the three state indices. -/
structure RequestBuilder (u : UrlSt) (m : MethSt) (b : BodySt) : Type where
  url : u.data
  method : m.data
  headers : List (String × String)
  body : b.data

/-- `RequestBuilder::new`, from
`impl RequestBuilder<MissingUrl, MissingMethod, MissingBody>`: the default
builder with every slot missing and no headers. -/
def RequestBuilder.new : RequestBuilder UrlSt.missing MethSt.missing BodySt.missing :=
  { url := (), method := (), headers := [], body := () }

/-- `RequestBuilder::url`, from `impl<U, M, B> RequestBuilder<U, M, B>`
(offered in every builder state): sets the URL slot, carries the other
fields through unchanged. -/
def RequestBuilder.withUrl {u : UrlSt} {m : MethSt} {b : BodySt}
    (self : RequestBuilder u m b) (s : String) : RequestBuilder UrlSt.set m b :=
  { url := s, method := self.method, headers := self.headers, body := self.body }

/-- `RequestBuilder::header`, from `impl<U, M, B> RequestBuilder<U, M, B>`
(offered in every builder state): pushes one (key, value) pair onto the
end of the header list, keeping the builder shape. -/
def RequestBuilder.withHeader {u : UrlSt} {m : MethSt} {b : BodySt}
    (self : RequestBuilder u m b) (k v : String) : RequestBuilder u m b :=
  { self with headers := self.headers ++ [(k, v)] }

/-- `RequestBuilder::get`, from `impl<U, B> RequestBuilder<U, MissingMethod, B>`
(offered only while the method slot is missing, for every body state):
sets the method to GET and forces the body slot to `NoBody`, discarding
whatever the body slot held. -/
def RequestBuilder.asGet {u : UrlSt} {b : BodySt}
    (self : RequestBuilder u MethSt.missing b) : RequestBuilder u MethSt.set BodySt.noBody :=
  { url := self.url, method := Method.GET, headers := self.headers, body := () }

/-- `RequestBuilder::post`, from `impl<U, B> RequestBuilder<U, MissingMethod, B>`
(offered only while the method slot is missing, for every body state):
sets the method to POST and carries the body slot through unchanged. -/
def RequestBuilder.asPost {u : UrlSt} {b : BodySt}
    (self : RequestBuilder u MethSt.missing b) : RequestBuilder u MethSt.set b :=
  { url := self.url, method := Method.POST, headers := self.headers, body := self.body }

/-- `RequestBuilder::body`, from `impl<U, M> RequestBuilder<U, M, MissingBody>`
(offered only while the body slot is `MissingBody`, for every URL and
method state): sets the body slot to `Body(Some(text))`. -/
def RequestBuilder.withBody {u : UrlSt} {m : MethSt}
    (self : RequestBuilder u m BodySt.missing) (s : String) : RequestBuilder u m BodySt.set :=
  { url := self.url, method := self.method, headers := self.headers, body := some s }

/-- `RequestBuilder::build`, from the three impl blocks
`impl RequestBuilder<Url, Method, Body>`,
`impl RequestBuilder<Url, Method, NoBody>` and
`impl RequestBuilder<Url, Method, MissingBody>`: offered exactly when the
URL and method slots are set, for every body state; the `Body` impl passes
the carried option through, the other two produce `body: None`. -/
def RequestBuilder.build {b : BodySt} : RequestBuilder UrlSt.set MethSt.set b → Request :=
  match b with
  | BodySt.set => fun self =>
      { url := self.url, method := self.method, headers := self.headers, body := self.body }
  | BodySt.noBody => fun self =>
      { url := self.url, method := self.method, headers := self.headers, body := none }
  | BodySt.missing => fun self =>
      { url := self.url, method := self.method, headers := self.headers, body := none }

/-- The builder states in which the source offers `RequestBuilder::body`,
read off the impl block header `impl<U, M> RequestBuilder<U, M, MissingBody>`:
any URL state, any method state, body state exactly `MissingBody`. -/
def bodyOffered (u : UrlSt) (m : MethSt) (b : BodySt) : Bool :=
  decide (b = BodySt.missing)

/-- The builder states in which the source offers a `build` method: one
impl block each for `Body`, `NoBody` and `MissingBody`, all three at
`Url` and `Method` set. -/
def buildOffered (u : UrlSt) (m : MethSt) (b : BodySt) : Bool :=
  decide (u = UrlSt.set ∧ m = MethSt.set ∧ b = BodySt.set)
    || decide (u = UrlSt.set ∧ m = MethSt.set ∧ b = BodySt.noBody)
    || decide (u = UrlSt.set ∧ m = MethSt.set ∧ b = BodySt.missing)

/-- Well-typed call chains of the construction API, starting from
`RequestBuilder::new`.  A value of `Builds u m b` is exactly a sequence of
API calls that the Rust type checker accepts and that ends in a builder of
slot states (u, m, b); the index constraints of each constructor are those
of the corresponding method. -/
inductive Builds : UrlSt → MethSt → BodySt → Type where
  | new : Builds UrlSt.missing MethSt.missing BodySt.missing
  | withUrl {u : UrlSt} {m : MethSt} {b : BodySt}
      (t : Builds u m b) (s : String) : Builds UrlSt.set m b
  | withHeader {u : UrlSt} {m : MethSt} {b : BodySt}
      (t : Builds u m b) (k v : String) : Builds u m b
  | asGet {u : UrlSt} {b : BodySt}
      (t : Builds u MethSt.missing b) : Builds u MethSt.set BodySt.noBody
  | asPost {u : UrlSt} {b : BodySt}
      (t : Builds u MethSt.missing b) : Builds u MethSt.set b
  | withBody {u : UrlSt} {m : MethSt}
      (t : Builds u m BodySt.missing) (s : String) : Builds u m BodySt.set

/-- Run a call chain: interpret each call by the corresponding builder
operation. -/
def Builds.run {u : UrlSt} {m : MethSt} {b : BodySt} : Builds u m b → RequestBuilder u m b
  | .new => RequestBuilder.new
  | .withUrl t s => (t.run).withUrl s
  | .withHeader t k v => (t.run).withHeader k v
  | .asGet t => (t.run).asGet
  | .asPost t => (t.run).asPost
  | .withBody t s => (t.run).withBody s

/-- Whether the chain contains an `asGet` call. -/
def Builds.usedGet {u : UrlSt} {m : MethSt} {b : BodySt} : Builds u m b → Bool
  | .new => false
  | .withUrl t _ => t.usedGet
  | .withHeader t _ _ => t.usedGet
  | .asGet _ => true
  | .asPost t => t.usedGet
  | .withBody t _ => t.usedGet

/-- Whether the chain contains an `asPost` call. -/
def Builds.usedPost {u : UrlSt} {m : MethSt} {b : BodySt} : Builds u m b → Bool
  | .new => false
  | .withUrl t _ => t.usedPost
  | .withHeader t _ _ => t.usedPost
  | .asGet t => t.usedPost
  | .asPost _ => true
  | .withBody t _ => t.usedPost

/-- The argument of the `withBody` call of the chain, if it has one. -/
def Builds.bodyArg {u : UrlSt} {m : MethSt} {b : BodySt} : Builds u m b → Option String
  | .new => none
  | .withUrl t _ => t.bodyArg
  | .withHeader t _ _ => t.bodyArg
  | .asGet t => t.bodyArg
  | .asPost t => t.bodyArg
  | .withBody _ s => some s

/-- The argument of the last `withUrl` call of the chain, if it has one. -/
def Builds.lastUrl {u : UrlSt} {m : MethSt} {b : BodySt} : Builds u m b → Option String
  | .new => none
  | .withUrl _ s => some s
  | .withHeader t _ _ => t.lastUrl
  | .asGet t => t.lastUrl
  | .asPost t => t.lastUrl
  | .withBody t _ => t.lastUrl

/-- The (key, value) pairs of the `withHeader` calls of the chain, in call
order. -/
def Builds.headerArgs {u : UrlSt} {m : MethSt} {b : BodySt} : Builds u m b → List (String × String)
  | .new => []
  | .withUrl t _ => t.headerArgs
  | .withHeader t k v => t.headerArgs ++ [(k, v)]
  | .asGet t => t.headerArgs
  | .asPost t => t.headerArgs
  | .withBody t _ => t.headerArgs

/-- The optional text a body slot state contributes to the final request:
what each of the three `build` impls does with the body field. -/
def BodySt.toOption : (b : BodySt) → b.data → Option String
  | .missing, _ => none
  | .noBody, _ => none
  | .set, o => o

/-- View a URL slot value as an optional url text. -/
def UrlSt.toOption : (u : UrlSt) → u.data → Option String
  | .missing, _ => none
  | .set, s => some s

/-- View a method slot value as an optional method. -/
def MethSt.toOption : (m : MethSt) → m.data → Option Method
  | .missing, _ => none
  | .set, mv => some mv

/-! ### Shared lemmas about the builder and reachable call chains -/

/-- The three `build` impls all copy url, method and headers and send the
body slot through `BodySt.toOption`. -/
theorem RequestBuilder.build_eq {b : BodySt} (self : RequestBuilder UrlSt.set MethSt.set b) :
    self.build = { url := self.url, method := self.method, headers := self.headers,
                   body := BodySt.toOption b self.body } := by
  cases b <;> rfl

/-- A chain ends in body state `NoBody` exactly when it contains an
`asGet` call. -/
theorem Builds.noBody_iff_usedGet {u : UrlSt} {m : MethSt} {b : BodySt} (t : Builds u m b) :
    b = BodySt.noBody ↔ t.usedGet = true := by
  induction t with
  | new => simp [Builds.usedGet]
  | withUrl t s ih => simpa [Builds.usedGet] using ih
  | withHeader t k v ih => simpa [Builds.usedGet] using ih
  | asGet t ih => simp [Builds.usedGet]
  | asPost t ih => simpa [Builds.usedGet] using ih
  | withBody t s ih =>
      simp only [Builds.usedGet]
      simp only [Builds.usedGet] at ih
      simp at ih ⊢
      exact ih

/-- A chain ends in method state missing exactly when it contains neither
an `asGet` nor an `asPost` call. -/
theorem Builds.missingMethod_iff {u : UrlSt} {m : MethSt} {b : BodySt} (t : Builds u m b) :
    m = MethSt.missing ↔ (t.usedGet = false ∧ t.usedPost = false) := by
  induction t with
  | new => simp [Builds.usedGet, Builds.usedPost]
  | withUrl t s ih => simpa [Builds.usedGet, Builds.usedPost] using ih
  | withHeader t k v ih => simpa [Builds.usedGet, Builds.usedPost] using ih
  | asGet t ih => simp [Builds.usedGet, Builds.usedPost]
  | asPost t ih => simp [Builds.usedGet, Builds.usedPost]
  | withBody t s ih => simpa [Builds.usedGet, Builds.usedPost] using ih

/-- No chain contains both an `asGet` and an `asPost` call: each needs the
method slot still missing and sets it permanently. -/
theorem Builds.usedGet_not_usedPost {u : UrlSt} {m : MethSt} {b : BodySt} (t : Builds u m b) :
    t.usedGet = true → t.usedPost = false := by
  induction t with
  | new => simp [Builds.usedGet]
  | withUrl t s ih => simpa [Builds.usedGet, Builds.usedPost] using ih
  | withHeader t k v ih => simpa [Builds.usedGet, Builds.usedPost] using ih
  | asGet t ih =>
      intro _
      simpa [Builds.usedPost] using ((Builds.missingMethod_iff t).mp rfl).2
  | asPost t ih =>
      intro h
      have h2 := ((Builds.missingMethod_iff t).mp rfl).1
      simp [Builds.usedGet] at h
      simp [h] at h2
  | withBody t s ih => simpa [Builds.usedGet, Builds.usedPost] using ih

/-- A chain that ends in body state `MissingBody` never made a `withBody`
call. -/
theorem Builds.bodyArg_of_missing {u : UrlSt} {m : MethSt} {b : BodySt} (t : Builds u m b) :
    b = BodySt.missing → t.bodyArg = none := by
  induction t with
  | new => simp [Builds.bodyArg]
  | withUrl t s ih => simpa [Builds.bodyArg] using ih
  | withHeader t k v ih => simpa [Builds.bodyArg] using ih
  | asGet t ih => simp
  | asPost t ih => simpa [Builds.bodyArg] using ih
  | withBody t s ih => simp

/-- The body value the builder carries at the end of a chain: discarded
when the chain used `asGet`, the `withBody` argument otherwise. -/
theorem Builds.body_run {u : UrlSt} {m : MethSt} {b : BodySt} (t : Builds u m b) :
    BodySt.toOption b t.run.body = (if t.usedGet = true then none else t.bodyArg) := by
  induction t with
  | new => simp [Builds.run, Builds.usedGet, Builds.bodyArg, RequestBuilder.new, BodySt.toOption]
  | withUrl t s ih =>
      simpa [Builds.run, Builds.usedGet, Builds.bodyArg, RequestBuilder.withUrl] using ih
  | withHeader t k v ih =>
      simpa [Builds.run, Builds.usedGet, Builds.bodyArg, RequestBuilder.withHeader] using ih
  | asGet t ih => simp [Builds.run, Builds.usedGet, RequestBuilder.asGet, BodySt.toOption]
  | asPost t ih =>
      simpa [Builds.run, Builds.usedGet, Builds.bodyArg, RequestBuilder.asPost] using ih
  | withBody t s ih =>
      have hg : t.usedGet = false := by
        have h1 := Builds.noBody_iff_usedGet t
        simp at h1
        exact h1
      simp [Builds.run, Builds.usedGet, Builds.bodyArg, RequestBuilder.withBody,
        BodySt.toOption, hg]

/-- The method value the builder carries at the end of a chain: GET if the
chain used `asGet`, POST if it used `asPost`, still missing otherwise. -/
theorem Builds.method_run {u : UrlSt} {m : MethSt} {b : BodySt} (t : Builds u m b) :
    MethSt.toOption m t.run.method =
      (if t.usedGet = true then some Method.GET
       else if t.usedPost = true then some Method.POST else none) := by
  induction t with
  | new => simp [Builds.run, Builds.usedGet, Builds.usedPost, RequestBuilder.new, MethSt.toOption]
  | withUrl t s ih =>
      simpa [Builds.run, Builds.usedGet, Builds.usedPost, RequestBuilder.withUrl] using ih
  | withHeader t k v ih =>
      simpa [Builds.run, Builds.usedGet, Builds.usedPost, RequestBuilder.withHeader] using ih
  | asGet t ih => simp [Builds.run, Builds.usedGet, RequestBuilder.asGet, MethSt.toOption]
  | asPost t ih =>
      have hg : t.usedGet = false := ((Builds.missingMethod_iff t).mp rfl).1
      simp [Builds.run, Builds.usedGet, Builds.usedPost, RequestBuilder.asPost,
        MethSt.toOption, hg]
  | withBody t s ih =>
      simpa [Builds.run, Builds.usedGet, Builds.usedPost, RequestBuilder.withBody] using ih

/-- The url value the builder carries at the end of a chain is the
argument of the last `withUrl` call. -/
theorem Builds.url_run {u : UrlSt} {m : MethSt} {b : BodySt} (t : Builds u m b) :
    UrlSt.toOption u t.run.url = t.lastUrl := by
  induction t with
  | new => simp [Builds.run, Builds.lastUrl, RequestBuilder.new, UrlSt.toOption]
  | withUrl t s ih => simp [Builds.run, Builds.lastUrl, RequestBuilder.withUrl, UrlSt.toOption]
  | withHeader t k v ih =>
      simpa [Builds.run, Builds.lastUrl, RequestBuilder.withHeader] using ih
  | asGet t ih => simpa [Builds.run, Builds.lastUrl, RequestBuilder.asGet] using ih
  | asPost t ih => simpa [Builds.run, Builds.lastUrl, RequestBuilder.asPost] using ih
  | withBody t s ih => simpa [Builds.run, Builds.lastUrl, RequestBuilder.withBody] using ih

/-- The headers the builder carries at the end of a chain are exactly the
`withHeader` arguments, in call order. -/
theorem Builds.headers_run {u : UrlSt} {m : MethSt} {b : BodySt} (t : Builds u m b) :
    t.run.headers = t.headerArgs := by
  induction t with
  | new => simp [Builds.run, Builds.headerArgs, RequestBuilder.new]
  | withUrl t s ih => simpa [Builds.run, Builds.headerArgs, RequestBuilder.withUrl] using ih
  | withHeader t k v ih =>
      simp [Builds.run, Builds.headerArgs, RequestBuilder.withHeader, ih]
  | asGet t ih => simpa [Builds.run, Builds.headerArgs, RequestBuilder.asGet] using ih
  | asPost t ih => simpa [Builds.run, Builds.headerArgs, RequestBuilder.asPost] using ih
  | withBody t s ih => simpa [Builds.run, Builds.headerArgs, RequestBuilder.withBody] using ih

/-! ### The claims -/

/-- Claim C1: after `asGet` the body slot of the builder is `NoBody`, and
`RequestBuilder::body` is offered only on builders whose body slot is
`MissingBody`, so no chain that used `asGet` is in a state on which the
body-setting operation exists; the sequence asGet-then-withBody is
statically unreachable. -/
theorem claim_c1 {u : UrlSt} {m : MethSt} {b : BodySt} (t : Builds u m b)
    (h : t.usedGet = true) : b = BodySt.noBody ∧ bodyOffered u m b = false := by
  have hb := (Builds.noBody_iff_usedGet t).mpr h
  subst hb
  exact ⟨rfl, by simp [bodyOffered]⟩

theorem claim_c1_witness :
    Builds.usedGet (Builds.asGet Builds.new) = true
      ∧ (BodySt.noBody = BodySt.noBody
          ∧ bodyOffered UrlSt.missing MethSt.set BodySt.noBody = false) :=
  ⟨rfl, claim_c1 (Builds.asGet Builds.new) rfl⟩

/-- Claim C2: a `build` impl exists for a builder state exactly when the
URL slot and the method slot are both set, with the body slot in any of
its three states. -/
theorem claim_c2 (u : UrlSt) (m : MethSt) (b : BodySt) :
    buildOffered u m b = true ↔ (u = UrlSt.set ∧ m = MethSt.set) := by
  cases u <;> cases m <;> cases b <;> simp [buildOffered]

/-- Claim C3: every request built by a chain that used `asGet` has
`body = none`, regardless of any `withBody` call made before `asGet`. -/
theorem claim_c3 {b : BodySt} (t : Builds UrlSt.set MethSt.set b)
    (h : t.usedGet = true) : (t.run.build).body = none := by
  have h3 := Builds.body_run t
  simp [h] at h3
  simp [RequestBuilder.build_eq, h3]

theorem claim_c3_witness :
    Builds.usedGet ((Builds.asGet Builds.new).withUrl "u") = true
      ∧ ((((Builds.asGet Builds.new).withUrl "u").run.build).body = none) :=
  ⟨rfl, claim_c3 _ rfl⟩

/-- Claim C4: on every builder on which `build` is offered, the built
request takes url, method and headers unchanged from the builder, with
`body = none` when the body slot is `MissingBody` or `NoBody` and
`body = some text` when the body slot is `Body(Some(text))`. -/
theorem claim_c4 :
    (∀ (self : RequestBuilder UrlSt.set MethSt.set BodySt.missing),
        self.build = { url := self.url, method := self.method,
                       headers := self.headers, body := none })
    ∧ (∀ (self : RequestBuilder UrlSt.set MethSt.set BodySt.noBody),
        self.build = { url := self.url, method := self.method,
                       headers := self.headers, body := none })
    ∧ (∀ (self : RequestBuilder UrlSt.set MethSt.set BodySt.set) (text : String),
        self.body = some text →
        self.build = { url := self.url, method := self.method,
                       headers := self.headers, body := some text }) := by
  refine ⟨fun self => rfl, fun self => rfl, fun self text h => ?_⟩
  simp [RequestBuilder.build, h]

theorem claim_c4_witness :
    (RequestBuilder.mk "u" Method.POST [] (some "t") :
        RequestBuilder UrlSt.set MethSt.set BodySt.set).build
      = { url := "u", method := Method.POST, headers := [], body := some "t" } :=
  claim_c4.2.2 _ "t" rfl

/-- Claim C5 counterexample: the body slot can be set before a method is
chosen, because `RequestBuilder::body` is generic over the method slot;
the chain new-withBody-asPost is well typed and ends with the body slot in
state `Body(Some("x"))`, not `MissingBody`, refuting the claim that after
`asPost` the body slot is always missing. -/
theorem claim_c5_counterexample :
    ((RequestBuilder.new.withBody "x").asPost).body = some "x"
      ∧ BodySt.set ≠ BodySt.missing :=
  ⟨rfl, by decide⟩

/-- Claim C5, amended: `withBody` is offered exactly on builders whose
body slot is `MissingBody` and is agnostic to the method slot, so the body
slot may already be `Body(Some(text))` when `asPost` is called; `asPost`
carries the body slot through unchanged, and before a method is chosen
the body slot is `MissingBody` or `Body(Some(text))` according to whether
a `withBody(text)` call was made. -/
theorem claim_c5 :
    (∀ (u : UrlSt) (m : MethSt) (b : BodySt), bodyOffered u m b = true ↔ b = BodySt.missing)
    ∧ ∀ (u : UrlSt) (b : BodySt) (t : Builds u MethSt.missing b),
        (b = BodySt.missing ∨ b = BodySt.set)
        ∧ (Builds.asPost t).run.body = t.run.body
        ∧ BodySt.toOption b t.run.body = t.bodyArg := by
  constructor
  · intro u m b
    simp [bodyOffered]
  · intro u b t
    have hg : t.usedGet = false := ((Builds.missingMethod_iff t).mp rfl).1
    have hb := Builds.noBody_iff_usedGet t
    refine ⟨?_, rfl, ?_⟩
    · cases b with
      | missing => exact Or.inl rfl
      | set => exact Or.inr rfl
      | noBody => rw [hg] at hb; simp at hb
    · simpa [hg] using Builds.body_run t

/-- Claim C6: every request built by a chain that used `asPost` has
`body = some text` when the chain made a `withBody(text)` call, and
`body = none` when it made none. -/
theorem claim_c6 {b : BodySt} (t : Builds UrlSt.set MethSt.set b)
    (h : t.usedPost = true) :
    (∀ s : String, t.bodyArg = some s → (t.run.build).body = some s)
    ∧ (t.bodyArg = none → (t.run.build).body = none) := by
  have hg : t.usedGet = false := by
    cases hG : t.usedGet with
    | false => rfl
    | true =>
        have hp := Builds.usedGet_not_usedPost t hG
        rw [h] at hp
        exact absurd hp (by simp)
  have h3 := Builds.body_run t
  simp [hg] at h3
  constructor
  · intro s hs
    simp [RequestBuilder.build_eq, h3, hs]
  · intro hn
    simp [RequestBuilder.build_eq, h3, hn]

theorem claim_c6_witness :
    Builds.usedPost (((Builds.withUrl Builds.new "u").asPost).withBody "x") = true
      ∧ (((((Builds.withUrl Builds.new "u").asPost).withBody "x").run.build).body
          = some "x") :=
  ⟨rfl, (claim_c6 (((Builds.withUrl Builds.new "u").asPost).withBody "x") rfl).1 "x" rfl⟩

/-- Claim C7: the headers of the built request are exactly the (key,
value) pairs of the `withHeader` calls of the chain, in call order, however
they are interleaved with the other calls, duplicates kept. -/
theorem claim_c7 {b : BodySt} (t : Builds UrlSt.set MethSt.set b) :
    (t.run.build).headers = t.headerArgs := by
  have h8 := Builds.headers_run t
  simp [RequestBuilder.build_eq, h8]

/-- Claim C8: for every reachable builder on which `build` is offered, the
url of the built request is the argument of the last `withUrl` call, and
the method is GET or POST according to whether the chain used `asGet` or
`asPost`. -/
theorem claim_c8 {b : BodySt} (t : Builds UrlSt.set MethSt.set b) :
    (∀ s : String, t.lastUrl = some s → (t.run.build).url = s)
    ∧ (t.usedGet = true → (t.run.build).method = Method.GET)
    ∧ (t.usedPost = true → (t.run.build).method = Method.POST) := by
  have hu := Builds.url_run t
  have hm := Builds.method_run t
  refine ⟨?_, ?_, ?_⟩
  · intro s hs
    rw [hs] at hu
    simp [UrlSt.toOption] at hu
    simp [RequestBuilder.build_eq, hu]
  · intro hG
    simp [hG, MethSt.toOption] at hm
    simp [RequestBuilder.build_eq, hm]
  · intro hp
    have hgf : t.usedGet = false := by
      cases hG : t.usedGet with
      | false => rfl
      | true =>
          have h2 := Builds.usedGet_not_usedPost t hG
          rw [hp] at h2
          exact absurd h2 (by simp)
    simp [hgf, hp, MethSt.toOption] at hm
    simp [RequestBuilder.build_eq, hm]

theorem claim_c8_witness :
    ((((Builds.withUrl Builds.new "u").asPost).run.build).url = "u")
      ∧ (Builds.usedPost ((Builds.withUrl Builds.new "u").asPost) = true)
      ∧ ((((Builds.withUrl Builds.new "u").asPost).run.build).method = Method.POST) :=
  ⟨(claim_c8 _).1 "u" rfl, rfl, (claim_c8 _).2.2 rfl⟩

/-- Claim C9: `withUrl` is offered in every builder state, also when the
URL slot is already set, and changes only the URL slot, to the new
argument; method, headers and body are carried through unchanged. -/
theorem claim_c9 {u : UrlSt} {m : MethSt} {b : BodySt}
    (self : RequestBuilder u m b) (s : String) :
    ((self.withUrl s).url = s)
    ∧ ((self.withUrl s).method = self.method)
    ∧ ((self.withUrl s).headers = self.headers)
    ∧ ((self.withUrl s).body = self.body) :=
  ⟨rfl, rfl, rfl, rfl⟩

/-- Claim C10: `withBody` is offered on a fresh builder before any method
is chosen; withBody-asPost-withUrl-build yields a request carrying the
body, while withBody-asGet-withUrl-build yields a request with no body,
`asGet` discarding the previously set body. -/
theorem claim_c10 (text u : String) :
    (((RequestBuilder.new.withBody text).asPost.withUrl u).build
        = { url := u, method := Method.POST, headers := [], body := some text })
    ∧ (((RequestBuilder.new.withBody text).asGet.withUrl u).build
        = { url := u, method := Method.GET, headers := [], body := none }) :=
  ⟨rfl, rfl⟩
